import Mathlib

/-!
Shallow embedding of the Conference Central backend (`conference.py`) and
verification of its specified behaviour.

The embedding models the persistent entities (`Profile`, `Conference`,
`Session`), the memcache key-value store, and the request handlers that the
specification's testable properties refer to:

* `conferenceRegistration` — `ConferenceApi._conferenceRegistration`
  (register / unregister, transactional seat accounting);
* `wishlistRegistration` — `ConferenceApi._wishlistRegistration`;
* `createConferenceObject` — the default-filling and seat-forcing logic of
  `ConferenceApi._createConferenceObject`;
* `formatFilters` — `ConferenceApi._formatFilters` (query-filter validation);
* `cacheAnnouncement` / `getAnnouncement` and
  `cacheFeaturedSpeaker` / `getFeaturedSpeaker` — the two memcache-backed
  derived signals.

Datastore entities are plain structures; a handler is a pure function from
the entities it reads to either an error (the endpoints exception it raises)
or the updated entities together with its return value.  The `ndb`
transaction wrapper is modelled by `registrationTxn`: an exception aborts the
transaction, so on an error the datastore is returned unchanged.
-/

namespace ConferenceCentral

/-- The error taxonomy of the endpoints layer: `endpoints.UnauthorizedException`,
`endpoints.NotFoundException`, `endpoints.ForbiddenException`,
`endpoints.BadRequestException` and `models.ConflictException`. -/
inductive ApiError where
  | unauthorized
  | notFound
  | forbidden
  | badRequest
  | conflict
deriving DecidableEq, Repr

/-- The fields of `models.Profile` that the verified handlers touch:
`conferenceKeysToAttend` and `sessionWishlist` are repeated string
properties holding websafe entity keys. -/
structure Profile where
  conferenceKeysToAttend : List String
  sessionWishlist : List String
deriving DecidableEq, Repr

/-- The fields of `models.Conference` that the verified handlers touch.
`seatsAvailable` and `maxAttendees` are `ndb.IntegerProperty`, hence `Int`. -/
structure Conference where
  name : String
  organizerUserId : String
  city : String
  topics : List String
  month : Nat
  maxAttendees : Int
  seatsAvailable : Int
deriving DecidableEq, Repr

/-- The fields of `models.Session` used by `_cacheFeaturedSpeaker`:
each session is a child of a conference (its parent key) and stores the
websafe key of its speaker. -/
structure Session where
  name : String
  parentConfKey : String
  speakerKey : String
deriving DecidableEq, Repr

/-! ## Registration (`_conferenceRegistration`, lines 417–463) -/

/-- Body of `ConferenceApi._conferenceRegistration(request, reg)`.

Inputs are the caller's profile, the conference fetched from the websafe key
(`none` when `ndb.Key(urlsafe=wsck).get()` finds nothing), the websafe
conference key `wsck` and the `reg` flag.  The result is the raised
exception, or the returned `BooleanMessage` value together with the profile
and conference as written back by `prof.put()` / `conf.put()`. -/
def conferenceRegistration (prof : Profile) (conf : Option Conference)
    (wsck : String) (reg : Bool) :
    Except ApiError (Bool × Profile × Conference) :=
  match conf with
  | none => .error .notFound
  | some conf =>
    if reg then
      -- check if user already registered otherwise add
      if wsck ∈ prof.conferenceKeysToAttend then
        .error .conflict
      -- check if seats avail
      else if conf.seatsAvailable ≤ 0 then
        .error .conflict
      else
        -- register user, take away one seat
        .ok (true,
          { prof with conferenceKeysToAttend :=
              prof.conferenceKeysToAttend ++ [wsck] },
          { conf with seatsAvailable := conf.seatsAvailable - 1 })
    else
      -- check if user already registered
      if wsck ∈ prof.conferenceKeysToAttend then
        -- unregister user, add back one seat
        .ok (true,
          { prof with conferenceKeysToAttend :=
              prof.conferenceKeysToAttend.erase wsck },
          { conf with seatsAvailable := conf.seatsAvailable + 1 })
      else
        .ok (false, prof, conf)

/-- The datastore slice touched by one `_conferenceRegistration` call: the
caller's profile and the target conference (`none` when no entity exists at
the requested key). -/
structure Datastore where
  prof : Profile
  conf : Option Conference
deriving DecidableEq, Repr

/-- The `@ndb.transactional(xg=True)` wrapper around
`_conferenceRegistration`, including the `_getProfileFromUser` authorization
check: with no authenticated user the call fails unauthorized; a raised
exception aborts the transaction, so on any error the datastore is unchanged;
on success both entities are written back together. -/
def registrationTxn (user : Option String) (ds : Datastore)
    (wsck : String) (reg : Bool) : Datastore × Except ApiError Bool :=
  match user with
  | none => (ds, .error .unauthorized)
  | some _ =>
    match conferenceRegistration ds.prof ds.conf wsck reg with
    | .ok (b, p, c) => ({ prof := p, conf := some c }, .ok b)
    | .error e => (ds, .error e)

/-- Number of occurrences of the conference key `wsck` in a profile's
`conferenceKeysToAttend` list (membership is at most one occurrence in any
reachable state, but the raw list may hold duplicates). -/
def attendCount (wsck : String) (p : Profile) : Nat :=
  p.conferenceKeysToAttend.count wsck

/-! ## Wishlist (`_wishlistRegistration`, lines 661–690) -/

/-- Body of `ConferenceApi._wishlistRegistration(request, add)`: the session
fetched from the websafe session key (`none` when absent), then add/remove
against `prof.sessionWishlist`, returning the raised exception or the
`BooleanMessage` value with the profile as written back. -/
def wishlistRegistration (prof : Profile) (session : Option Session)
    (sessionKey : String) (add : Bool) : Except ApiError (Bool × Profile) :=
  match session with
  | none => .error .notFound
  | some _ =>
    if add then
      -- check if session is already in wishlist
      if sessionKey ∈ prof.sessionWishlist then
        .error .conflict
      else
        -- if not in wishlist add
        .ok (true, { prof with sessionWishlist :=
            prof.sessionWishlist ++ [sessionKey] })
    else
      -- check if session is in wishlist
      if sessionKey ∈ prof.sessionWishlist then
        -- remove session
        .ok (true, { prof with sessionWishlist :=
            prof.sessionWishlist.erase sessionKey })
      else
        -- raise exception for the session not existing in the list
        .error .conflict

/-! ## Conference creation (`_createConferenceObject`, lines 142–202) -/

/-- A calendar date, standing in for the parsed `datetime.date`. -/
structure Date where
  year : Nat
  month : Nat
  day : Nat
deriving DecidableEq, Repr

/-- The caller-settable fields of the inbound `ConferenceForm`.  Unset
proto fields arrive as `None` (`none`); `topics` is a repeated field whose
unset form is the empty list. -/
structure ConferenceCreateRequest where
  name : Option String
  city : Option String
  topics : List String
  startDate : Option Date
  endDate : Option Date
  maxAttendees : Option Int
  seatsAvailable : Option Int
deriving DecidableEq, Repr

/-- Model of `ConferenceApi._createConferenceObject`: authorization check, required
`name` check (`if not request.name` also rejects the empty string), the
`DEFAULTS` table (`city = "Default City"`, `maxAttendees = 0`,
`seatsAvailable = 0`, `topics = ["Default", "Topic"]`), month derivation
from `startDate` (0 when absent), and the rule that forces
`seatsAvailable = maxAttendees` when `maxAttendees > 0`. -/
def createConferenceObject (user : Option String)
    (req : ConferenceCreateRequest) : Except ApiError Conference :=
  match user with
  | none => .error .unauthorized
  | some userId =>
    match req.name with
    | none => .error .badRequest
    | some nm =>
      if nm = "" then .error .badRequest
      else
        -- add default values for those missing
        let city := req.city.getD "Default City"
        let topics := if req.topics = [] then ["Default", "Topic"]
                      else req.topics
        let maxAttendees := req.maxAttendees.getD 0
        let seats := req.seatsAvailable.getD 0
        -- set month based on start_date
        let month := match req.startDate with
          | some d => d.month
          | none => 0
        -- set seatsAvailable to be same as maxAttendees on creation
        let seats := if maxAttendees > 0 then maxAttendees else seats
        .ok { name := nm, organizerUserId := userId, city := city,
              topics := topics, month := month,
              maxAttendees := maxAttendees, seatsAvailable := seats }

/-! ## Query-filter validation (`_formatFilters`, lines 226–256) -/

/-- The `FIELDS` whitelist mapping request field names to datastore
property names. -/
def FIELDS : List (String × String) :=
  [("CITY", "city"), ("TOPIC", "topics"), ("MONTH", "month"),
   ("MAX_ATTENDEES", "maxAttendees")]

/-- The `OPERATORS` whitelist mapping request operator names to query
operators. -/
def OPERATORS : List (String × String) :=
  [("EQ", "="), ("GT", ">"), ("GTEQ", ">="), ("LT", "<"), ("LTEQ", "<="),
   ("NE", "!=")]

/-- One inbound `ConferenceQueryForm` filter triple. -/
structure QueryFilter where
  field : String
  operator : String
  value : String
deriving DecidableEq, Repr

/-- A filter whose field and operator have been translated through the
whitelists. -/
structure FormattedFilter where
  field : String
  operator : String
  value : String
deriving DecidableEq, Repr

/-- The whitelist translation of a single filter: `FIELDS[filtr["field"]]`
and `OPERATORS[filtr["operator"]]`, with `none` standing for the
`KeyError` branch. -/
def translateFilter (f : QueryFilter) : Option FormattedFilter :=
  match FIELDS.lookup f.field, OPERATORS.lookup f.operator with
  | some fld, some op => some { field := fld, operator := op, value := f.value }
  | _, _ => none

/-- The loop of `_formatFilters`, threading the `inequality_field`
accumulator: a filter outside the whitelists raises `BadRequestException`;
every operator other than `"="` is an inequality and may only repeat the
field already recorded in the accumulator. -/
def formatFiltersAux (ineq : Option String) :
    List QueryFilter → Except ApiError (Option String × List FormattedFilter)
  | [] => .ok (ineq, [])
  | f :: fs =>
    match translateFilter f with
    | none => .error .badRequest
    | some ff =>
      -- Every operation except "=" is an inequality
      if ff.operator ≠ "=" then
        match ineq with
        | some g =>
          if g ≠ ff.field then .error .badRequest
          else
            match formatFiltersAux (some ff.field) fs with
            | .error e => .error e
            | .ok (i, rest) => .ok (i, ff :: rest)
        | none =>
          match formatFiltersAux (some ff.field) fs with
          | .error e => .error e
          | .ok (i, rest) => .ok (i, ff :: rest)
      else
        match formatFiltersAux ineq fs with
        | .error e => .error e
        | .ok (i, rest) => .ok (i, ff :: rest)

/-- Model of `ConferenceApi._formatFilters(filters)`: returns the inequality field
(if any) and the formatted filters, or raises `BadRequestException`. -/
def formatFilters (fs : List QueryFilter) :
    Except ApiError (Option String × List FormattedFilter) :=
  formatFiltersAux none fs

/-- The translated fields of the filters that use an inequality operator. -/
def ineqFieldsOf (fs : List QueryFilter) : List String :=
  fs.filterMap fun f =>
    match translateFilter f with
    | some ff => if ff.operator ≠ "=" then some ff.field else none
    | none => none

/-! ## Memcache and the derived signals (lines 42–43, 809–873) -/

/-- The memcache service: a partial map from keys to cached strings. -/
def Memcache : Type := String → Option String

/-- Model of `memcache.set(key, value)`. -/
def memcacheSet (key value : String) (m : Memcache) : Memcache :=
  fun k => if k = key then some value else m k

/-- Model of `memcache.delete(key)`. -/
def memcacheDelete (key : String) (m : Memcache) : Memcache :=
  fun k => if k = key then none else m k

/-- An empty memcache with no entries. -/
def emptyMemcache : Memcache := fun _ => none

/-- The constant `MEMCACHE_ANNOUNCEMENTS_KEY = "RECENT_ANNOUNCEMENTS"`. -/
def MEMCACHE_ANNOUNCEMENTS_KEY : String := "RECENT_ANNOUNCEMENTS"

/-- The constant `MEMCACHE_FEATURED_SPEAKER_KEY = "FEATURED_SPEAKER"`. -/
def MEMCACHE_FEATURED_SPEAKER_KEY : String := "FEATURED_SPEAKER"

/-- The announcement string built by `_cacheAnnouncement` from the names of
the nearly-sold-out conferences: `'%s %s' % (header, ', '.join(names))`. -/
def announcementMsg (names : List String) : String :=
  "Last chance to attend! The following conferences are nearly sold out:"
    ++ " " ++ String.intercalate ", " names

/-- Model of `ConferenceApi._cacheAnnouncement()`: queries the conferences with
`seatsAvailable <= 5 AND seatsAvailable > 0`; if any exist, formats the
announcement and sets it in memcache, otherwise deletes the memcache entry.
Returns the announcement together with the updated cache. -/
def cacheAnnouncement (allConfs : List Conference) (m : Memcache) :
    String × Memcache :=
  let confs := allConfs.filter fun c =>
    c.seatsAvailable ≤ 5 && c.seatsAvailable > 0
  if confs ≠ [] then
    let announcement := announcementMsg (confs.map Conference.name)
    (announcement, memcacheSet MEMCACHE_ANNOUNCEMENTS_KEY announcement m)
  else
    ("", memcacheDelete MEMCACHE_ANNOUNCEMENTS_KEY m)

/-- Model of `ConferenceApi.getAnnouncement`: the cached value, or `""` when the
entry is absent or falsy. -/
def getAnnouncement (m : Memcache) : String :=
  match m MEMCACHE_ANNOUNCEMENTS_KEY with
  | some a => if a = "" then "" else a
  | none => ""

/-- Number of sessions of the given conference held by the given speaker:
`Session.query(ancestor=confKey).filter(Session.speakerKey == speakerKey).count()`. -/
def sessionCount (sessions : List Session)
    (speakerKey conferenceKey : String) : Nat :=
  (sessions.filter fun s =>
    s.parentConfKey == conferenceKey && s.speakerKey == speakerKey).length

/-- The featured-speaker string built by `_cacheFeaturedSpeaker`:
`'%s %s' % ('The featured speaker for this conference is: ', name)`. -/
def featuredSpeakerMsg (speakerName : String) : String :=
  "The featured speaker for this conference is: " ++ " " ++ speakerName

/-- Model of `ConferenceApi._cacheFeaturedSpeaker(speakerKey, conferenceKey)`:
counts the speaker's sessions at the conference; when there is more than
one, formats the featured-speaker string and sets it in memcache under the
fixed key; otherwise the cache is left untouched.  `speakerName` models
`sKey.get().speaker_name`; `sessions` models the session entities in the
datastore.  Returns the function's return value with the updated cache. -/
def cacheFeaturedSpeaker (sessions : List Session)
    (speakerKey conferenceKey speakerName : String) (m : Memcache) :
    String × Memcache :=
  if sessionCount sessions speakerKey conferenceKey > 1 then
    let featuredSpeaker := featuredSpeakerMsg speakerName
    (featuredSpeaker,
     memcacheSet MEMCACHE_FEATURED_SPEAKER_KEY featuredSpeaker m)
  else
    ("", m)

/-- Model of `ConferenceApi.getFeaturedSpeaker`: the cached value, or `""` when the
entry is absent or falsy. -/
def getFeaturedSpeaker (m : Memcache) : String :=
  match m MEMCACHE_FEATURED_SPEAKER_KEY with
  | some s => if s = "" then "" else s
  | none => ""

/-! ## Registration traces

A system state for seat accounting: one conference and the profiles of the
attendee population, indexed by position.  Each API call is made by one
profile; a call is *successful* when it returns `BooleanMessage(data=True)`.
-/

/-- One conference together with the profiles that may register for it. -/
structure SysState where
  conf : Conference
  profs : List Profile
deriving DecidableEq, Repr

/-- One successful `_conferenceRegistration` call by the profile at index
`i` (`reg = true` for `registerForConference`, `false` for
`unregisterFromConference`): `some s'` when the call succeeds with return
value `true`, committing both entity writes; `none` otherwise. -/
def regOpStep (wsck : String) (s : SysState) (i : Nat) (reg : Bool) :
    Option SysState :=
  match s.profs[i]? with
  | none => none
  | some p =>
    match conferenceRegistration p (some s.conf) wsck reg with
    | .ok (true, p', c') => some { conf := c', profs := s.profs.set i p' }
    | _ => none

/-- A valid interleaved sequence of successful registration calls: each
element `(i, reg)` is a successful call by profile `i`. -/
inductive RegTrace (wsck : String) : SysState → List (Nat × Bool) → SysState → Prop
  | nil (s : SysState) : RegTrace wsck s [] s
  | cons {s s' s'' : SysState} {i : Nat} {reg : Bool} {ops : List (Nat × Bool)} :
      regOpStep wsck s i reg = some s' →
      RegTrace wsck s' ops s'' →
      RegTrace wsck s ((i, reg) :: ops) s''

/-- States reachable from `s₀` by successful registration calls. -/
inductive Reachable (wsck : String) (s₀ : SysState) : SysState → Prop
  | refl : Reachable wsck s₀ s₀
  | step {s s' : SysState} {i : Nat} {reg : Bool} :
      Reachable wsck s₀ s →
      regOpStep wsck s i reg = some s' →
      Reachable wsck s₀ s'

/-- Total number of registrations for `wsck` recorded across the profiles. -/
def regCount (wsck : String) (profs : List Profile) : Nat :=
  (profs.map (attendCount wsck)).sum

/-- The seat-accounting invariant: seats never negative, seats plus the
recorded registrations equal the capacity, each profile records the
conference at most once, and the capacity field is never mutated. -/
def SeatInv (wsck : String) (capacity : Int) (s : SysState) : Prop :=
  0 ≤ s.conf.seatsAvailable ∧
  s.conf.seatsAvailable + (regCount wsck s.profs : Int) = capacity ∧
  (∀ p ∈ s.profs, attendCount wsck p ≤ 1) ∧
  s.conf.maxAttendees = capacity

/-! ## Evaluation lemmas for the registration handler -/

theorem conferenceRegistration_reg_already {prof : Profile} {conf : Conference}
    {wsck : String} (hmem : wsck ∈ prof.conferenceKeysToAttend) :
    conferenceRegistration prof (some conf) wsck true = .error .conflict := by
  simp [conferenceRegistration, hmem]

theorem conferenceRegistration_reg_full {prof : Profile} {conf : Conference}
    {wsck : String} (hmem : wsck ∉ prof.conferenceKeysToAttend)
    (hseats : conf.seatsAvailable ≤ 0) :
    conferenceRegistration prof (some conf) wsck true = .error .conflict := by
  simp [conferenceRegistration, hmem, hseats]

theorem conferenceRegistration_reg_ok {prof : Profile} {conf : Conference}
    {wsck : String} (hmem : wsck ∉ prof.conferenceKeysToAttend)
    (hseats : 0 < conf.seatsAvailable) :
    conferenceRegistration prof (some conf) wsck true =
      .ok (true,
        { prof with conferenceKeysToAttend :=
            prof.conferenceKeysToAttend ++ [wsck] },
        { conf with seatsAvailable := conf.seatsAvailable - 1 }) := by
  simp [conferenceRegistration, hmem, not_le.mpr hseats]

theorem conferenceRegistration_unreg_mem {prof : Profile} {conf : Conference}
    {wsck : String} (hmem : wsck ∈ prof.conferenceKeysToAttend) :
    conferenceRegistration prof (some conf) wsck false =
      .ok (true,
        { prof with conferenceKeysToAttend :=
            prof.conferenceKeysToAttend.erase wsck },
        { conf with seatsAvailable := conf.seatsAvailable + 1 }) := by
  simp [conferenceRegistration, hmem]

theorem conferenceRegistration_unreg_notMem {prof : Profile} {conf : Conference}
    {wsck : String} (hmem : wsck ∉ prof.conferenceKeysToAttend) :
    conferenceRegistration prof (some conf) wsck false = .ok (false, prof, conf) := by
  simp [conferenceRegistration, hmem]

/-! ## Claim theorems: registration and wishlist handlers -/

/-- C2: for an existing conference, `registerForConference` fails with a
conflict error iff the caller's profile already contains the conference
token or `seatsAvailable ≤ 0`; otherwise it appends the token to the
profile's attending list, decrements `seatsAvailable` by exactly one and
returns `true`; and after any successful registration a second registration
by the same profile yields a conflict, the seat counter having been
decremented exactly once. -/
theorem registerForConference_conflict_iff (prof : Profile) (conf : Conference)
    (wsck : String) :
    (conferenceRegistration prof (some conf) wsck true = .error .conflict ↔
      wsck ∈ prof.conferenceKeysToAttend ∨ conf.seatsAvailable ≤ 0) ∧
    (wsck ∉ prof.conferenceKeysToAttend → 0 < conf.seatsAvailable →
      conferenceRegistration prof (some conf) wsck true =
        .ok (true,
          { prof with conferenceKeysToAttend :=
              prof.conferenceKeysToAttend ++ [wsck] },
          { conf with seatsAvailable := conf.seatsAvailable - 1 })) ∧
    (∀ p' c', conferenceRegistration prof (some conf) wsck true = .ok (true, p', c') →
      conferenceRegistration p' (some c') wsck true = .error .conflict ∧
      c'.seatsAvailable = conf.seatsAvailable - 1) := by
  refine ⟨?_, ?_, ?_⟩
  · by_cases hmem : wsck ∈ prof.conferenceKeysToAttend
    · simp [conferenceRegistration, hmem]
    · by_cases hseats : conf.seatsAvailable ≤ 0 <;>
        simp [conferenceRegistration, hmem, hseats]
  · intro hmem hseats
    simp [conferenceRegistration, hmem, not_le.mpr hseats]
  · intro p' c' h
    by_cases hmem : wsck ∈ prof.conferenceKeysToAttend
    · simp [conferenceRegistration, hmem] at h
    · by_cases hseats : conf.seatsAvailable ≤ 0
      · simp [conferenceRegistration, hmem, hseats] at h
      · simp [conferenceRegistration, hmem, hseats] at h
        obtain ⟨hp, hc⟩ := h
        subst hp hc
        constructor
        · simp [conferenceRegistration]
        · rfl

/-- C2 witness: a concrete successful registration followed by a conflicting
second attempt, with the seat counter decremented exactly once. -/
theorem registerForConference_conflict_iff_witness :
    conferenceRegistration ⟨[], []⟩ (some ⟨"C", "u", "ct", [], 1, 2, 2⟩) "k" true =
      .ok (true, ⟨["k"], []⟩, ⟨"C", "u", "ct", [], 1, 2, 1⟩) ∧
    conferenceRegistration ⟨["k"], []⟩ (some ⟨"C", "u", "ct", [], 1, 2, 1⟩) "k" true =
      .error .conflict := by
  have h := registerForConference_conflict_iff ⟨[], []⟩ ⟨"C", "u", "ct", [], 1, 2, 2⟩ "k"
  refine ⟨?_, ?_⟩
  · exact h.2.1 (by decide) (by decide)
  · exact (h.2.2 ⟨["k"], []⟩ ⟨"C", "u", "ct", [], 1, 2, 1⟩
      (h.2.1 (by decide) (by decide))).1

/-- C4: for an existing conference, `unregisterFromConference` with the
token present removes it, increments `seatsAvailable` by one and returns
`true`; with the token absent it returns `false` without error and leaves
both the profile and the conference unchanged. -/
theorem unregisterFromConference_spec (prof : Profile) (conf : Conference)
    (wsck : String) :
    (wsck ∈ prof.conferenceKeysToAttend →
      conferenceRegistration prof (some conf) wsck false =
        .ok (true,
          { prof with conferenceKeysToAttend :=
              prof.conferenceKeysToAttend.erase wsck },
          { conf with seatsAvailable := conf.seatsAvailable + 1 })) ∧
    (wsck ∉ prof.conferenceKeysToAttend →
      conferenceRegistration prof (some conf) wsck false = .ok (false, prof, conf)) := by
  constructor <;> intro hmem <;> simp [conferenceRegistration, hmem]

/-- C4 witness: a concrete unregistration of a registered profile and a
concrete no-op `false` result for an unregistered one. -/
theorem unregisterFromConference_spec_witness :
    conferenceRegistration ⟨["k"], []⟩ (some ⟨"C", "u", "ct", [], 1, 2, 1⟩) "k" false =
      .ok (true, ⟨[], []⟩, ⟨"C", "u", "ct", [], 1, 2, 2⟩) ∧
    conferenceRegistration ⟨[], []⟩ (some ⟨"C", "u", "ct", [], 1, 2, 2⟩) "k" false =
      .ok (false, ⟨[], []⟩, ⟨"C", "u", "ct", [], 1, 2, 2⟩) := by
  constructor
  · exact (unregisterFromConference_spec ⟨["k"], []⟩ ⟨"C", "u", "ct", [], 1, 2, 1⟩ "k").1
      (by decide)
  · exact (unregisterFromConference_spec ⟨[], []⟩ ⟨"C", "u", "ct", [], 1, 2, 2⟩ "k").2
      (by decide)

/-- C7: for an existing session, `addSessionToWishlist` conflicts exactly
when the session token is already wishlisted (otherwise appends it and
returns `true`), while `removeSessionFromWishlist` conflicts exactly when
the token is not wishlisted (otherwise removes it and returns `true`) —
remove-when-absent is an error, unlike unregister-when-not-registered. -/
theorem wishlistRegistration_spec (prof : Profile) (sess : Session)
    (sessionKey : String) :
    (wishlistRegistration prof (some sess) sessionKey true = .error .conflict ↔
      sessionKey ∈ prof.sessionWishlist) ∧
    (sessionKey ∉ prof.sessionWishlist →
      wishlistRegistration prof (some sess) sessionKey true =
        .ok (true, { prof with sessionWishlist :=
            prof.sessionWishlist ++ [sessionKey] })) ∧
    (wishlistRegistration prof (some sess) sessionKey false = .error .conflict ↔
      sessionKey ∉ prof.sessionWishlist) ∧
    (sessionKey ∈ prof.sessionWishlist →
      wishlistRegistration prof (some sess) sessionKey false =
        .ok (true, { prof with sessionWishlist :=
            prof.sessionWishlist.erase sessionKey })) := by
  by_cases hmem : sessionKey ∈ prof.sessionWishlist <;>
    simp [wishlistRegistration, hmem]

/-- C7 witness: concrete conflict on a duplicate add, concrete conflict on
removing an absent session, and the two success cases. -/
theorem wishlistRegistration_spec_witness :
    wishlistRegistration ⟨[], ["s"]⟩ (some ⟨"S", "c", "sp"⟩) "s" true =
      .error .conflict ∧
    wishlistRegistration ⟨[], []⟩ (some ⟨"S", "c", "sp"⟩) "s" false =
      .error .conflict ∧
    wishlistRegistration ⟨[], []⟩ (some ⟨"S", "c", "sp"⟩) "s" true =
      .ok (true, ⟨[], ["s"]⟩) ∧
    wishlistRegistration ⟨[], ["s"]⟩ (some ⟨"S", "c", "sp"⟩) "s" false =
      .ok (true, ⟨[], []⟩) := by
  refine ⟨?_, ?_, ?_, ?_⟩
  · exact (wishlistRegistration_spec ⟨[], ["s"]⟩ ⟨"S", "c", "sp"⟩ "s").1.mpr (by decide)
  · exact (wishlistRegistration_spec ⟨[], []⟩ ⟨"S", "c", "sp"⟩ "s").2.2.1.mpr (by decide)
  · exact (wishlistRegistration_spec ⟨[], []⟩ ⟨"S", "c", "sp"⟩ "s").2.1 (by decide)
  · exact (wishlistRegistration_spec ⟨[], ["s"]⟩ ⟨"S", "c", "sp"⟩ "s").2.2.2 (by decide)

/-- C3: whenever the registration transaction terminates with an error
(unauthorized, not-found or conflict) the datastore is unchanged, and in
every outcome the change in `seatsAvailable` is exactly the negative of the
change in the profile's membership count — a seat-count change without the
matching membership change is never observable. -/
theorem registrationTxn_atomic (user : Option String) (ds : Datastore)
    (wsck : String) (reg : Bool) :
    (∀ e, (registrationTxn user ds wsck reg).2 = .error e →
      (registrationTxn user ds wsck reg).1 = ds) ∧
    (∀ c c', ds.conf = some c →
      (registrationTxn user ds wsck reg).1.conf = some c' →
      c'.seatsAvailable - c.seatsAvailable =
        (attendCount wsck ds.prof : Int)
          - (attendCount wsck (registrationTxn user ds wsck reg).1.prof : Int)) := by
  obtain ⟨prof, oconf⟩ := ds
  match user with
  | none =>
    refine ⟨fun e _ => rfl, fun c c' hc hc' => ?_⟩
    obtain rfl : oconf = some c := hc
    obtain rfl : c = c' := by simpa [registrationTxn] using hc'
    simp [registrationTxn]
  | some u =>
    match oconf with
    | none =>
      refine ⟨fun e _ => rfl, fun c c' hc _ => by simp at hc⟩
    | some conf =>
      match reg with
      | true =>
        by_cases hmem : wsck ∈ prof.conferenceKeysToAttend
        · have htxn : registrationTxn (some u) ⟨prof, some conf⟩ wsck true =
              (⟨prof, some conf⟩, .error .conflict) := by
            simp [registrationTxn, conferenceRegistration_reg_already hmem]
          refine ⟨fun e _ => by rw [htxn], fun c c' hc hc' => ?_⟩
          obtain rfl : conf = c := by simpa using hc
          obtain rfl : conf = c' := by simpa [htxn] using hc'
          simp [htxn]
        · by_cases hseats : conf.seatsAvailable ≤ 0
          · have htxn : registrationTxn (some u) ⟨prof, some conf⟩ wsck true =
                (⟨prof, some conf⟩, .error .conflict) := by
              simp [registrationTxn, conferenceRegistration_reg_full hmem hseats]
            refine ⟨fun e _ => by rw [htxn], fun c c' hc hc' => ?_⟩
            obtain rfl : conf = c := by simpa using hc
            obtain rfl : conf = c' := by simpa [htxn] using hc'
            simp [htxn]
          · have htxn : registrationTxn (some u) ⟨prof, some conf⟩ wsck true =
                (⟨{ prof with conferenceKeysToAttend :=
                      prof.conferenceKeysToAttend ++ [wsck] },
                  some { conf with seatsAvailable := conf.seatsAvailable - 1 }⟩,
                 .ok true) := by
              simp [registrationTxn,
                conferenceRegistration_reg_ok hmem (not_le.mp hseats)]
            constructor
            · intro e he
              rw [htxn] at he
              simp at he
            · intro c c' hc hc'
              obtain rfl : conf = c := by simpa using hc
              obtain rfl : { conf with seatsAvailable := conf.seatsAvailable - 1 } = c' := by
                simpa [htxn] using hc'
              simp only [htxn, attendCount, List.count_append,
                List.count_singleton_self]
              push_cast
              ring
      | false =>
        by_cases hmem : wsck ∈ prof.conferenceKeysToAttend
        · have htxn : registrationTxn (some u) ⟨prof, some conf⟩ wsck false =
              (⟨{ prof with conferenceKeysToAttend :=
                    prof.conferenceKeysToAttend.erase wsck },
                some { conf with seatsAvailable := conf.seatsAvailable + 1 }⟩,
               .ok true) := by
            simp [registrationTxn, conferenceRegistration_unreg_mem hmem]
          constructor
          · intro e he
            rw [htxn] at he
            simp at he
          · intro c c' hc hc'
            obtain rfl : conf = c := by simpa using hc
            obtain rfl : { conf with seatsAvailable := conf.seatsAvailable + 1 } = c' := by
              simpa [htxn] using hc'
            have hpos : 1 ≤ prof.conferenceKeysToAttend.count wsck :=
              List.count_pos_iff.mpr hmem
            simp only [htxn, attendCount, List.count_erase_self]
            omega
        · have htxn : registrationTxn (some u) ⟨prof, some conf⟩ wsck false =
              (⟨prof, some conf⟩, .ok false) := by
            simp [registrationTxn, conferenceRegistration_unreg_notMem hmem]
          constructor
          · intro e he
            rw [htxn] at he
            simp at he
          · intro c c' hc hc'
            obtain rfl : conf = c := by simpa using hc
            obtain rfl : conf = c' := by simpa [htxn] using hc'
            simp [htxn]

/-- C3 witness: a concrete conflicting registration leaves the datastore
unchanged, and a concrete successful registration changes the seat count by
exactly the negative of the membership-count change. -/
theorem registrationTxn_atomic_witness :
    (registrationTxn (some "u") ⟨⟨[], []⟩, some ⟨"C", "u", "ct", [], 1, 2, 0⟩⟩
        "k" true).1 = ⟨⟨[], []⟩, some ⟨"C", "u", "ct", [], 1, 2, 0⟩⟩ ∧
    ((1 : Int) - 2 =
      (attendCount "k" (⟨[], []⟩ : Profile) : Int)
        - (attendCount "k"
            (registrationTxn (some "u") ⟨⟨[], []⟩, some ⟨"C", "u", "ct", [], 1, 2, 2⟩⟩
              "k" true).1.prof : Int)) := by
  constructor
  · exact (registrationTxn_atomic (some "u")
      ⟨⟨[], []⟩, some ⟨"C", "u", "ct", [], 1, 2, 0⟩⟩ "k" true).1 .conflict rfl
  · exact (registrationTxn_atomic (some "u")
      ⟨⟨[], []⟩, some ⟨"C", "u", "ct", [], 1, 2, 2⟩⟩ "k" true).2
      ⟨"C", "u", "ct", [], 1, 2, 2⟩ ⟨"C", "u", "ct", [], 1, 2, 1⟩ rfl rfl

/-! ## Claim theorems: conference creation -/

/-- C6 counterexample: a create request with `maxAttendees = 0` and a
caller-supplied `seatsAvailable = 7` is accepted and creates a conference
whose `seatsAvailable` (7) differs from its `maxAttendees` (0) — the
caller-supplied value is not overridden. -/
theorem createConference_seats_counterexample :
    ∃ conf : Conference,
      createConferenceObject (some "organizer")
        { name := some "Conf", city := none, topics := [], startDate := none,
          endDate := none, maxAttendees := some 0, seatsAvailable := some 7 }
        = .ok conf ∧
      conf.maxAttendees = 0 ∧ conf.seatsAvailable = 7 ∧
      conf.seatsAvailable ≠ conf.maxAttendees := by
  exact ⟨_, rfl, rfl, rfl, by decide⟩

/-- C6 (amended): the created conference's `maxAttendees` is the requested
value (defaulted to 0); when that value is positive, `seatsAvailable` is
forced equal to it, overriding any caller-supplied value; otherwise
`seatsAvailable` is the caller-supplied value, defaulted to 0. -/
theorem createConference_seats_amended (user : Option String)
    (req : ConferenceCreateRequest) (conf : Conference)
    (h : createConferenceObject user req = .ok conf) :
    conf.maxAttendees = req.maxAttendees.getD 0 ∧
    (0 < req.maxAttendees.getD 0 → conf.seatsAvailable = conf.maxAttendees) ∧
    (req.maxAttendees.getD 0 ≤ 0 →
      conf.seatsAvailable = req.seatsAvailable.getD 0) := by
  match user with
  | none => simp [createConferenceObject] at h
  | some uid =>
    match hn : req.name with
    | none => simp [createConferenceObject, hn] at h
    | some nm =>
      by_cases hnm : nm = ""
      · simp [createConferenceObject, hn, hnm] at h
      · simp only [createConferenceObject, hn, if_neg hnm, Except.ok.injEq] at h
        subst h
        by_cases hmax : req.maxAttendees.getD 0 > 0
        · simp [if_pos hmax]
          omega
        · simp [if_neg hmax]
          omega

/-- C6 amended-claim witness: with `maxAttendees = 5` and caller-supplied
`seatsAvailable = 2`, the created conference has `seatsAvailable = 5`. -/
theorem createConference_seats_amended_witness :
    ((⟨"Conf", "u", "Default City", ["Default", "Topic"], 0, 5, 5⟩ :
        Conference).maxAttendees =
      (Option.some (5 : Int)).getD 0) ∧
    (0 < (Option.some (5 : Int)).getD 0 →
      (⟨"Conf", "u", "Default City", ["Default", "Topic"], 0, 5, 5⟩ :
          Conference).seatsAvailable =
        (⟨"Conf", "u", "Default City", ["Default", "Topic"], 0, 5, 5⟩ :
          Conference).maxAttendees) ∧
    ((Option.some (5 : Int)).getD 0 ≤ 0 →
      (⟨"Conf", "u", "Default City", ["Default", "Topic"], 0, 5, 5⟩ :
          Conference).seatsAvailable = (Option.some (2 : Int)).getD 0) :=
  createConference_seats_amended (some "u")
    { name := some "Conf", city := none, topics := [], startDate := none,
      endDate := none, maxAttendees := some 5, seatsAvailable := some 2 }
    _ rfl

/-! ## Claim theorems: seat accounting over registration traces -/

theorem regCount_nil (wsck : String) : regCount wsck [] = 0 := rfl

theorem regCount_cons (wsck : String) (p : Profile) (l : List Profile) :
    regCount wsck (p :: l) = attendCount wsck p + regCount wsck l := by
  simp [regCount]

/-- Updating the profile at index `i` changes the total registration count
by the difference of the profile's own counts. -/
theorem regCount_set (wsck : String) (profs : List Profile) (i : Nat)
    (p p' : Profile) (h : profs[i]? = some p) :
    regCount wsck (profs.set i p') + attendCount wsck p =
      regCount wsck profs + attendCount wsck p' := by
  induction profs generalizing i with
  | nil => simp at h
  | cons q rest ih =>
    cases i with
    | zero =>
      obtain rfl : q = p := by simpa using h
      simp only [List.set, regCount_cons]
      omega
    | succ n =>
      have h' : rest[n]? = some p := by simpa using h
      have := ih n h'
      simp only [List.set, regCount_cons]
      omega

/-- Elimination principle for a successful registration step: the step is
either a successful register (profile not yet attending, a seat free) or a
successful unregister (profile attending), with the corresponding writes. -/
theorem regOpStep_elim {wsck : String} {s : SysState} {i : Nat} {reg : Bool}
    {s' : SysState} (hstep : regOpStep wsck s i reg = some s') :
    ∃ p, s.profs[i]? = some p ∧
      ((reg = true ∧ wsck ∉ p.conferenceKeysToAttend ∧
        0 < s.conf.seatsAvailable ∧
        s' = ⟨{ s.conf with seatsAvailable := s.conf.seatsAvailable - 1 },
              s.profs.set i { p with conferenceKeysToAttend :=
                  p.conferenceKeysToAttend ++ [wsck] }⟩) ∨
       (reg = false ∧ wsck ∈ p.conferenceKeysToAttend ∧
        s' = ⟨{ s.conf with seatsAvailable := s.conf.seatsAvailable + 1 },
              s.profs.set i { p with conferenceKeysToAttend :=
                  p.conferenceKeysToAttend.erase wsck }⟩)) := by
  cases hp : s.profs[i]? with
  | none => simp [regOpStep, hp] at hstep
  | some p =>
    simp only [regOpStep, hp] at hstep
    refine ⟨p, rfl, ?_⟩
    cases reg with
    | true =>
      by_cases hmem : wsck ∈ p.conferenceKeysToAttend
      · rw [conferenceRegistration_reg_already hmem] at hstep
        simp at hstep
      · by_cases hseats : s.conf.seatsAvailable ≤ 0
        · rw [conferenceRegistration_reg_full hmem hseats] at hstep
          simp at hstep
        · rw [conferenceRegistration_reg_ok hmem (not_le.mp hseats)] at hstep
          obtain rfl : _ = s' := by simpa using hstep
          exact Or.inl ⟨rfl, hmem, not_le.mp hseats, rfl⟩
    | false =>
      by_cases hmem : wsck ∈ p.conferenceKeysToAttend
      · rw [conferenceRegistration_unreg_mem hmem] at hstep
        obtain rfl : _ = s' := by simpa using hstep
        exact Or.inr ⟨rfl, hmem, rfl⟩
      · rw [conferenceRegistration_unreg_notMem hmem] at hstep
        simp at hstep

/-- A successful step changes `seatsAvailable` by exactly `-1` (register) or
`+1` (unregister) and never touches `maxAttendees`. -/
theorem regOpStep_seats {wsck : String} {s : SysState} {i : Nat} {reg : Bool}
    {s' : SysState} (hstep : regOpStep wsck s i reg = some s') :
    s'.conf.seatsAvailable =
      s.conf.seatsAvailable + (if reg then -1 else 1) ∧
    s'.conf.maxAttendees = s.conf.maxAttendees := by
  obtain ⟨p, hp, hcase | hcase⟩ := regOpStep_elim hstep
  · obtain ⟨rfl, -, -, rfl⟩ := hcase
    constructor <;> simp <;> ring
  · obtain ⟨rfl, -, rfl⟩ := hcase
    constructor <;> simp

/-- A successful step preserves the seat-accounting invariant. -/
theorem regOpStep_inv {wsck : String} {capacity : Int} {s : SysState}
    {i : Nat} {reg : Bool} {s' : SysState}
    (hstep : regOpStep wsck s i reg = some s')
    (hinv : SeatInv wsck capacity s) : SeatInv wsck capacity s' := by
  obtain ⟨hnonneg, hsum, hcounts, hmaxeq⟩ := hinv
  obtain ⟨p, hp, hcase | hcase⟩ := regOpStep_elim hstep
  · obtain ⟨rfl, hmem, hseats, rfl⟩ := hcase
    have hpcount : attendCount wsck p = 0 := by
      simpa [attendCount] using List.count_eq_zero.mpr hmem
    have hpcount' :
        attendCount wsck { p with conferenceKeysToAttend :=
            p.conferenceKeysToAttend ++ [wsck] } = attendCount wsck p + 1 := by
      simp [attendCount]
    have hset := regCount_set wsck s.profs i p
      { p with conferenceKeysToAttend := p.conferenceKeysToAttend ++ [wsck] } hp
    refine ⟨by simpa using hseats, ?_, ?_, by simpa using hmaxeq⟩
    · simp only at hsum ⊢
      omega
    · intro q hq
      rcases List.mem_or_eq_of_mem_set hq with hq' | rfl
      · exact hcounts q hq'
      · omega
  · obtain ⟨rfl, hmem, rfl⟩ := hcase
    have hpmem : p ∈ s.profs := List.getElem?_mem hp
    have hple : attendCount wsck p ≤ 1 := hcounts p hpmem
    have hpge : 1 ≤ attendCount wsck p := by
      simpa [attendCount] using List.count_pos_iff.mpr hmem
    have hpcount' :
        attendCount wsck { p with conferenceKeysToAttend :=
            p.conferenceKeysToAttend.erase wsck } = attendCount wsck p - 1 := by
      simp [attendCount, List.count_erase_self]
    have hset := regCount_set wsck s.profs i p
      { p with conferenceKeysToAttend := p.conferenceKeysToAttend.erase wsck } hp
    refine ⟨by simp only; omega, ?_, ?_, by simpa using hmaxeq⟩
    · simp only at hsum ⊢
      omega
    · intro q hq
      rcases List.mem_or_eq_of_mem_set hq with hq' | rfl
      · exact hcounts q hq'
      · omega

/-- The invariant holds at every reachable state. -/
theorem reachable_inv {wsck : String} {capacity : Int} {s₀ s : SysState}
    (h : Reachable wsck s₀ s) (hinv : SeatInv wsck capacity s₀) :
    SeatInv wsck capacity s := by
  induction h with
  | refl => exact hinv
  | step _ hstep ih => exact regOpStep_inv hstep ih

/-- Along a trace, the final seat count is the initial one minus the number
of successful registrations plus the number of successful unregistrations,
and `maxAttendees` is never touched. -/
theorem regTrace_seats {wsck : String} {s s' : SysState}
    {ops : List (Nat × Bool)} (h : RegTrace wsck s ops s') :
    s'.conf.seatsAvailable =
      s.conf.seatsAvailable - (ops.countP (fun o => o.2) : Int)
        + (ops.countP (fun o => !o.2) : Int) ∧
    s'.conf.maxAttendees = s.conf.maxAttendees := by
  induction h with
  | nil => simp
  | @cons s₁ s₂ s₃ i reg ops' hstep _ ih =>
    obtain ⟨hseats, hmax⟩ := regOpStep_seats hstep
    obtain ⟨ihseats, ihmax⟩ := ih
    constructor
    · rw [ihseats, hseats]
      cases reg <;> simp [List.countP_cons] <;> push_cast <;> ring
    · rw [ihmax, hmax]

/-- C1: starting from a conference created with capacity `maxAttendees`
(all seats free, no profile yet registered), after any valid interleaved
sequence of `N` successful registrations and `M` successful unregistrations
(`N, M ≤ maxAttendees`) the seat count equals `maxAttendees − N + M`, and at
every reachable state `0 ≤ seatsAvailable ≤ maxAttendees`. -/
theorem seat_accounting (wsck : String) (maxAttendees : Int) (s₀ : SysState)
    (ops : List (Nat × Bool)) (sF : SysState) (N M : Nat)
    (htrace : RegTrace wsck s₀ ops sF)
    (hseats₀ : s₀.conf.seatsAvailable = maxAttendees)
    (hmax₀ : s₀.conf.maxAttendees = maxAttendees)
    (hfresh : ∀ p ∈ s₀.profs, wsck ∉ p.conferenceKeysToAttend)
    (hN : N = ops.countP (fun o => o.2))
    (hM : M = ops.countP (fun o => !o.2))
    (hNle : (N : Int) ≤ maxAttendees) (hMle : (M : Int) ≤ maxAttendees) :
    sF.conf.seatsAvailable = maxAttendees - N + M ∧
    ∀ s, Reachable wsck s₀ s →
      0 ≤ s.conf.seatsAvailable ∧
      s.conf.seatsAvailable ≤ s.conf.maxAttendees := by
  have hinv₀ : SeatInv wsck maxAttendees s₀ := by
    have hzero : regCount wsck s₀.profs = 0 := by
      apply List.sum_eq_zero
      intro x hx
      obtain ⟨p, hp, rfl⟩ := List.mem_map.mp hx
      simpa [attendCount] using List.count_eq_zero.mpr (hfresh p hp)
    refine ⟨by omega, by rw [hseats₀, hzero]; ring, ?_, hmax₀⟩
    intro p hp
    simp [attendCount, List.count_eq_zero.mpr (hfresh p hp)]
  constructor
  · obtain ⟨hs, -⟩ := regTrace_seats htrace
    rw [hs, hseats₀, hN, hM]
  · intro s hs
    obtain ⟨hnonneg, hsum, -, hmaxeq⟩ := reachable_inv hs hinv₀
    refine ⟨hnonneg, ?_⟩
    rw [hmaxeq]
    have : (0 : Int) ≤ (regCount wsck s.profs : Int) := by positivity
    omega

/-- C1 witness: capacity 2, one profile; register then unregister is a valid
trace with `N = M = 1`, the final seat count is `2 − 1 + 1`, and the
intermediate reachable state (after the register) satisfies
`0 ≤ seatsAvailable ≤ maxAttendees`. -/
theorem seat_accounting_witness :
    (⟨⟨"C", "u", "ct", [], 1, 2, 2⟩, [⟨[], []⟩]⟩ : SysState).conf.seatsAvailable
        = 2 - (1 : Nat) + (1 : Nat) ∧
    0 ≤ (⟨⟨"C", "u", "ct", [], 1, 2, 1⟩, [⟨["k"], []⟩]⟩ : SysState).conf.seatsAvailable ∧
    (⟨⟨"C", "u", "ct", [], 1, 2, 1⟩, [⟨["k"], []⟩]⟩ : SysState).conf.seatsAvailable ≤
      (⟨⟨"C", "u", "ct", [], 1, 2, 1⟩, [⟨["k"], []⟩]⟩ : SysState).conf.maxAttendees := by
  have htr : RegTrace "k"
      (⟨⟨"C", "u", "ct", [], 1, 2, 2⟩, [⟨[], []⟩]⟩ : SysState)
      [(0, true), (0, false)]
      (⟨⟨"C", "u", "ct", [], 1, 2, 2⟩, [⟨[], []⟩]⟩ : SysState) :=
    @RegTrace.cons "k"
      ⟨⟨"C", "u", "ct", [], 1, 2, 2⟩, [⟨[], []⟩]⟩
      ⟨⟨"C", "u", "ct", [], 1, 2, 1⟩, [⟨["k"], []⟩]⟩
      ⟨⟨"C", "u", "ct", [], 1, 2, 2⟩, [⟨[], []⟩]⟩
      0 true [(0, false)] rfl
      (@RegTrace.cons "k"
        ⟨⟨"C", "u", "ct", [], 1, 2, 1⟩, [⟨["k"], []⟩]⟩
        ⟨⟨"C", "u", "ct", [], 1, 2, 2⟩, [⟨[], []⟩]⟩
        ⟨⟨"C", "u", "ct", [], 1, 2, 2⟩, [⟨[], []⟩]⟩
        0 false [] rfl (RegTrace.nil _))
  have h := seat_accounting "k" 2
    ⟨⟨"C", "u", "ct", [], 1, 2, 2⟩, [⟨[], []⟩]⟩
    [(0, true), (0, false)]
    ⟨⟨"C", "u", "ct", [], 1, 2, 2⟩, [⟨[], []⟩]⟩
    1 1 htr rfl rfl (by decide) (by decide) (by decide) (by decide) (by decide)
  exact ⟨h.1, h.2 ⟨⟨"C", "u", "ct", [], 1, 2, 1⟩, [⟨["k"], []⟩]⟩
    (@Reachable.step "k"
      ⟨⟨"C", "u", "ct", [], 1, 2, 2⟩, [⟨[], []⟩]⟩
      ⟨⟨"C", "u", "ct", [], 1, 2, 2⟩, [⟨[], []⟩]⟩
      ⟨⟨"C", "u", "ct", [], 1, 2, 1⟩, [⟨["k"], []⟩]⟩
      0 true Reachable.refl rfl)⟩

/-! ## Claim theorems: query-filter validation -/

/-- The inequality-accumulator discipline of `_formatFilters`, read off the
list of inequality fields: starting from accumulator `g`, each inequality
field must match the recorded one. -/
def chainOk : Option String → List String → Prop
  | _, [] => True
  | none, a :: rest => chainOk (some a) rest
  | some g, a :: rest => a = g ∧ chainOk (some g) rest

theorem chainOk_some_iff (g : String) (l : List String) :
    chainOk (some g) l ↔ ∀ a ∈ l, a = g := by
  induction l with
  | nil => simp [chainOk]
  | cons a rest ih => simp [chainOk, ih]

theorem chainOk_none_iff (l : List String) :
    chainOk none l ↔ ∀ a ∈ l, ∀ b ∈ l, a = b := by
  cases l with
  | nil => simp [chainOk]
  | cons a rest =>
    rw [show chainOk none (a :: rest) = chainOk (some a) rest from rfl,
      chainOk_some_iff]
    constructor
    · intro h x hx y hy
      rcases List.mem_cons.mp hx with rfl | hx' <;>
        rcases List.mem_cons.mp hy with rfl | hy'
      · rfl
      · exact (h y hy').symm
      · exact h x hx'
      · exact (h x hx').trans (h y hy').symm
    · intro h x hx
      exact h x (List.mem_cons_of_mem a hx) a (List.mem_cons_self a rest)

/-- A filter outside the whitelists forces the `BadRequestException`
outcome no matter where it sits in the list. -/
theorem formatFiltersAux_invalid {fs : List QueryFilter} (g : Option String)
    (h : ∃ f ∈ fs, translateFilter f = none) :
    formatFiltersAux g fs = .error .badRequest := by
  revert h
  induction fs generalizing g with
  | nil =>
    intro h
    obtain ⟨f, hf, -⟩ := h
    simp at hf
  | cons f rest ih =>
    intro h
    obtain ⟨f₀, hf₀mem, hf₀⟩ := h
    rcases List.mem_cons.mp hf₀mem with rfl | hmem
    · simp [formatFiltersAux, hf₀]
    · cases htr : translateFilter f with
      | none => simp [formatFiltersAux, htr]
      | some ff =>
        have hrec : ∀ g', formatFiltersAux g' rest = .error .badRequest :=
          fun g' => ih g' ⟨f₀, hmem, hf₀⟩
        by_cases hop : ff.operator = "="
        · simp [formatFiltersAux, htr, hop, hrec]
        · cases g with
          | none => simp [formatFiltersAux, htr, hop, hrec]
          | some g₀ =>
            by_cases hg : g₀ = ff.field
            · simp [formatFiltersAux, htr, hop, hg, hrec]
            · simp [formatFiltersAux, htr, hop, hg]

/-- The loop of `_formatFilters` either raises `BadRequestException` or succeeds: no
other exception escapes the loop. -/
theorem formatFiltersAux_cases (fs : List QueryFilter) :
    ∀ g, formatFiltersAux g fs = .error .badRequest ∨
      ∃ r, formatFiltersAux g fs = .ok r := by
  induction fs with
  | nil => intro g; exact Or.inr ⟨(g, []), rfl⟩
  | cons f rest ih =>
    intro g
    cases htr : translateFilter f with
    | none => exact Or.inl (by simp [formatFiltersAux, htr])
    | some ff =>
      by_cases hop : ff.operator = "="
      · rcases ih g with herr | ⟨r, hok⟩
        · exact Or.inl (by simp [formatFiltersAux, htr, hop, herr])
        · exact Or.inr ⟨(r.1, ff :: r.2), by simp [formatFiltersAux, htr, hop, hok]⟩
      · cases g with
        | none =>
          rcases ih (some ff.field) with herr | ⟨r, hok⟩
          · exact Or.inl (by simp [formatFiltersAux, htr, hop, herr])
          · exact Or.inr ⟨(r.1, ff :: r.2), by simp [formatFiltersAux, htr, hop, hok]⟩
        | some g₀ =>
          by_cases hg : g₀ = ff.field
          · rcases ih (some ff.field) with herr | ⟨r, hok⟩
            · exact Or.inl (by simp [formatFiltersAux, htr, hop, hg, herr])
            · exact Or.inr ⟨(r.1, ff :: r.2),
                by simp [formatFiltersAux, htr, hop, hg, hok]⟩
          · exact Or.inl (by simp [formatFiltersAux, htr, hop, hg])

/-- With every filter on the whitelists, the loop succeeds exactly when the
inequality fields respect the accumulator discipline. -/
theorem formatFiltersAux_ok_iff (fs : List QueryFilter) :
    ∀ g, (∀ f ∈ fs, (translateFilter f).isSome) →
      ((∃ r, formatFiltersAux g fs = .ok r) ↔ chainOk g (ineqFieldsOf fs)) := by
  induction fs with
  | nil =>
    intro g _
    simp [formatFiltersAux, ineqFieldsOf, chainOk]
  | cons f rest ih =>
    intro g hval
    obtain ⟨ff, htr⟩ := Option.isSome_iff_exists.mp (hval f (List.mem_cons_self f rest))
    have hvalrest : ∀ f' ∈ rest, (translateFilter f').isSome :=
      fun f' hf' => hval f' (List.mem_cons_of_mem f hf')
    by_cases hop : ff.operator = "="
    · have hfields : ineqFieldsOf (f :: rest) = ineqFieldsOf rest := by
        simp [ineqFieldsOf, htr, hop]
      rw [hfields, ← ih g hvalrest]
      rcases formatFiltersAux_cases rest g with herr | ⟨r, hok⟩
      · simp [formatFiltersAux, htr, hop, herr]
      · simp [formatFiltersAux, htr, hop, hok]
    · have hfields : ineqFieldsOf (f :: rest) = ff.field :: ineqFieldsOf rest := by
        simp [ineqFieldsOf, htr, hop]
      cases g with
      | none =>
        rw [hfields, show chainOk none (ff.field :: ineqFieldsOf rest) =
          chainOk (some ff.field) (ineqFieldsOf rest) from rfl,
          ← ih (some ff.field) hvalrest]
        rcases formatFiltersAux_cases rest (some ff.field) with herr | ⟨r, hok⟩
        · simp [formatFiltersAux, htr, hop, herr]
        · simp [formatFiltersAux, htr, hop, hok]
      | some g₀ =>
        by_cases hg : g₀ = ff.field
        · subst hg
          rw [hfields, show chainOk (some ff.field) (ff.field :: ineqFieldsOf rest) =
            (ff.field = ff.field ∧ chainOk (some ff.field) (ineqFieldsOf rest)) from rfl,
            ← ih (some ff.field) hvalrest]
          simp only [eq_self_iff_true, true_and]
          rcases formatFiltersAux_cases rest (some ff.field) with herr | ⟨r, hok⟩
          · simp [formatFiltersAux, htr, hop, herr]
          · simp [formatFiltersAux, htr, hop, hok]
        · rw [hfields]
          constructor
          · rintro ⟨r, hok⟩
            simp [formatFiltersAux, htr, hop, hg] at hok
          · intro hchain
            rw [show chainOk (some g₀) (ff.field :: ineqFieldsOf rest) =
              (ff.field = g₀ ∧ chainOk (some g₀) (ineqFieldsOf rest)) from rfl] at hchain
            exact absurd hchain.1 (fun hh => hg hh.symm)

/-- C5: filter validation rejects every filter with a field or operator
outside the whitelists, rejects every filter list in which inequality
operators target two different fields, accepts every all-whitelisted list
whose inequality operators target at most one field, and raises no error
other than the client error. -/
theorem queryFilters_validation (fs : List QueryFilter) :
    ((∃ f ∈ fs, translateFilter f = none) →
      formatFilters fs = .error .badRequest) ∧
    ((∀ f ∈ fs, (translateFilter f).isSome) →
      ((∃ r, formatFilters fs = .ok r) ↔
        ∀ a ∈ ineqFieldsOf fs, ∀ b ∈ ineqFieldsOf fs, a = b)) ∧
    (∀ e, formatFilters fs = .error e → e = .badRequest) := by
  refine ⟨fun h => formatFiltersAux_invalid none h, fun hval => ?_, fun e he => ?_⟩
  · rw [show formatFilters fs = formatFiltersAux none fs from rfl,
      formatFiltersAux_ok_iff fs none hval, chainOk_none_iff]
  · rcases formatFiltersAux_cases fs none with herr | ⟨r, hok⟩
    · rw [show formatFilters fs = formatFiltersAux none fs from rfl, herr] at he
      exact (Except.error.injEq _ _).mp he.symm
    · rw [show formatFilters fs = formatFiltersAux none fs from rfl, hok] at he
      exact absurd he (by simp)

/-- C5 witness: an invalid operator is rejected, one inequality field plus
an equality filter is accepted, and two different inequality fields are
rejected as the client error. -/
theorem queryFilters_validation_witness :
    formatFilters [⟨"CITY", "XX", "x"⟩] = .error .badRequest ∧
    (∃ r, formatFilters
      [⟨"MAX_ATTENDEES", "GT", "5"⟩, ⟨"CITY", "EQ", "London"⟩] = .ok r) ∧
    formatFilters [⟨"MAX_ATTENDEES", "GT", "5"⟩, ⟨"MONTH", "LT", "6"⟩] =
      .error .badRequest := by
  refine ⟨?_, ?_, ?_⟩
  · exact (queryFilters_validation [⟨"CITY", "XX", "x"⟩]).1
      ⟨⟨"CITY", "XX", "x"⟩, by simp, by decide⟩
  · exact ((queryFilters_validation
      [⟨"MAX_ATTENDEES", "GT", "5"⟩, ⟨"CITY", "EQ", "London"⟩]).2.1
      (by decide)).mpr (by decide)
  · have h := (queryFilters_validation
      [⟨"MAX_ATTENDEES", "GT", "5"⟩, ⟨"MONTH", "LT", "6"⟩]).2.1 (by decide)
    rcases formatFiltersAux_cases
      [⟨"MAX_ATTENDEES", "GT", "5"⟩, ⟨"MONTH", "LT", "6"⟩] none with herr | hok
    · exact herr
    · exact absurd (h.mp hok) (by decide)

/-! ## Claim theorems: derived cached signals -/

theorem featuredSpeakerMsg_ne_empty (speakerName : String) :
    featuredSpeakerMsg speakerName ≠ "" := by
  intro h
  have hlen := congrArg String.length h
  simp only [featuredSpeakerMsg, String.length_append] at hlen
  rw [show (" " : String).length = 1 from rfl,
    show ("" : String).length = 0 from rfl] at hlen
  omega

/-- C8: after a session is created, the featured-speaker recompute with a
speaker holding more than one session at the conference stores the
descriptive string (which contains the speaker's name) in the cache, and
`getFeaturedSpeaker` then returns it; with at most one session, nothing is
written — the cache, including any previously stored value, is unchanged. -/
theorem featuredSpeaker_cache (sessions : List Session)
    (speakerKey conferenceKey speakerName : String) (m : Memcache) :
    (1 < sessionCount sessions speakerKey conferenceKey →
      (cacheFeaturedSpeaker sessions speakerKey conferenceKey speakerName m).2 =
        memcacheSet MEMCACHE_FEATURED_SPEAKER_KEY
          (featuredSpeakerMsg speakerName) m ∧
      getFeaturedSpeaker
          (cacheFeaturedSpeaker sessions speakerKey conferenceKey speakerName m).2 =
        featuredSpeakerMsg speakerName ∧
      ∃ pre, featuredSpeakerMsg speakerName = pre ++ speakerName) ∧
    (sessionCount sessions speakerKey conferenceKey ≤ 1 →
      (cacheFeaturedSpeaker sessions speakerKey conferenceKey speakerName m).2 = m ∧
      (cacheFeaturedSpeaker sessions speakerKey conferenceKey speakerName m).1 = "") := by
  constructor
  · intro hcount
    refine ⟨by simp [cacheFeaturedSpeaker, hcount], ?_,
      ⟨"The featured speaker for this conference is: " ++ " ", rfl⟩⟩
    simp [cacheFeaturedSpeaker, hcount, getFeaturedSpeaker, memcacheSet,
      featuredSpeakerMsg_ne_empty speakerName]
  · intro hcount
    have hnot : ¬ 1 < sessionCount sessions speakerKey conferenceKey := by omega
    exact ⟨by simp [cacheFeaturedSpeaker, hnot], by simp [cacheFeaturedSpeaker, hnot]⟩

/-- C8 witness: a second session for the same speaker at the same conference
makes `getFeaturedSpeaker` return the descriptive string, while a lone
session leaves a previously cached value untouched. -/
theorem featuredSpeaker_cache_witness :
    getFeaturedSpeaker
        (cacheFeaturedSpeaker [⟨"s1", "c", "sp"⟩, ⟨"s2", "c", "sp"⟩]
          "sp" "c" "Alice" emptyMemcache).2 = featuredSpeakerMsg "Alice" ∧
    (cacheFeaturedSpeaker [⟨"s1", "c", "sp"⟩] "other" "c" "Bob"
        (memcacheSet MEMCACHE_FEATURED_SPEAKER_KEY (featuredSpeakerMsg "Alice")
          emptyMemcache)).2 =
      memcacheSet MEMCACHE_FEATURED_SPEAKER_KEY (featuredSpeakerMsg "Alice")
        emptyMemcache := by
  constructor
  · exact ((featuredSpeaker_cache [⟨"s1", "c", "sp"⟩, ⟨"s2", "c", "sp"⟩]
      "sp" "c" "Alice" emptyMemcache).1 (by decide)).2.1
  · exact ((featuredSpeaker_cache [⟨"s1", "c", "sp"⟩] "other" "c" "Bob"
      (memcacheSet MEMCACHE_FEATURED_SPEAKER_KEY (featuredSpeakerMsg "Alice")
        emptyMemcache)).2 (by decide)).1

/-- A conference qualifies for the announcement when it has 1 to 5 seats
remaining. -/
def nearSoldOut (c : Conference) : Prop :=
  0 < c.seatsAvailable ∧ c.seatsAvailable ≤ 5

instance (c : Conference) : Decidable (nearSoldOut c) := by
  unfold nearSoldOut
  infer_instance

theorem filter_nearSoldOut (l : List Conference) :
    l.filter (fun c => c.seatsAvailable ≤ 5 && c.seatsAvailable > 0) =
      l.filter (fun c => decide (nearSoldOut c)) := by
  apply List.filter_congr
  intro c _
  simp [nearSoldOut, Bool.and_comm]

/-- C9: the announcement recompute stores the string listing exactly the
names of the conferences with 1–5 seats remaining (in particular, no full
conference with `seatsAvailable = 0` is listed); when no conference
qualifies, the cache entry is deleted rather than set to an empty string,
and `getAnnouncement` then returns the empty string. -/
theorem announcement_cache (allConfs : List Conference) (m : Memcache) :
    (allConfs.filter (fun c => decide (nearSoldOut c)) ≠ [] →
      (cacheAnnouncement allConfs m).2 MEMCACHE_ANNOUNCEMENTS_KEY =
        some (announcementMsg
          ((allConfs.filter (fun c => decide (nearSoldOut c))).map
            Conference.name)) ∧
      (cacheAnnouncement allConfs m).1 =
        announcementMsg
          ((allConfs.filter (fun c => decide (nearSoldOut c))).map
            Conference.name)) ∧
    (∀ c ∈ allConfs, c.seatsAvailable = 0 →
      c ∉ allConfs.filter (fun c => decide (nearSoldOut c))) ∧
    (allConfs.filter (fun c => decide (nearSoldOut c)) = [] →
      (cacheAnnouncement allConfs m).2 MEMCACHE_ANNOUNCEMENTS_KEY = none ∧
      getAnnouncement (cacheAnnouncement allConfs m).2 = "") := by
  refine ⟨fun hne => ?_, fun c _ hfull hmem => ?_, fun hempty => ?_⟩
  · rw [show cacheAnnouncement allConfs m =
      (if h : allConfs.filter (fun c => c.seatsAvailable ≤ 5 && c.seatsAvailable > 0) ≠ [] then
        (announcementMsg ((allConfs.filter (fun c => c.seatsAvailable ≤ 5 && c.seatsAvailable > 0)).map Conference.name),
         memcacheSet MEMCACHE_ANNOUNCEMENTS_KEY
           (announcementMsg ((allConfs.filter (fun c => c.seatsAvailable ≤ 5 && c.seatsAvailable > 0)).map Conference.name)) m)
       else ("", memcacheDelete MEMCACHE_ANNOUNCEMENTS_KEY m)) from by
        simp [cacheAnnouncement]]
    rw [filter_nearSoldOut] at *
    rw [dif_pos hne]
    exact ⟨by simp [memcacheSet], rfl⟩
  · have := (List.mem_filter.mp hmem).2
    simp [nearSoldOut, hfull] at this
  · have hempty' :
        allConfs.filter (fun c => c.seatsAvailable ≤ 5 && c.seatsAvailable > 0) = [] := by
      rw [filter_nearSoldOut]; exact hempty
    constructor
    · simp [cacheAnnouncement, hempty', memcacheDelete]
    · simp [cacheAnnouncement, hempty', getAnnouncement, memcacheDelete]

/-- C9 witness: with conferences holding 3, 2, 5 and 0 seats, the stored
announcement lists exactly the three near-sold-out names and excludes the
full one; with only a full conference, the entry is deleted and
`getAnnouncement` returns the empty string. -/
theorem announcement_cache_witness :
    (cacheAnnouncement
        [⟨"A", "u", "ct", [], 1, 10, 3⟩, ⟨"B", "u", "ct", [], 1, 10, 2⟩,
         ⟨"C", "u", "ct", [], 1, 10, 5⟩, ⟨"D", "u", "ct", [], 1, 10, 0⟩]
        emptyMemcache).2 MEMCACHE_ANNOUNCEMENTS_KEY =
      some (announcementMsg ["A", "B", "C"]) ∧
    (cacheAnnouncement [⟨"D", "u", "ct", [], 1, 10, 0⟩] emptyMemcache).2
        MEMCACHE_ANNOUNCEMENTS_KEY = none ∧
    getAnnouncement
        (cacheAnnouncement [⟨"D", "u", "ct", [], 1, 10, 0⟩] emptyMemcache).2 = "" := by
  have h1 := (announcement_cache
    [⟨"A", "u", "ct", [], 1, 10, 3⟩, ⟨"B", "u", "ct", [], 1, 10, 2⟩,
     ⟨"C", "u", "ct", [], 1, 10, 5⟩, ⟨"D", "u", "ct", [], 1, 10, 0⟩]
    emptyMemcache).1 (by decide)
  have h2 := (announcement_cache [⟨"D", "u", "ct", [], 1, 10, 0⟩]
    emptyMemcache).2.2 (by decide)
  exact ⟨h1.1, h2.1, h2.2⟩

/-- C10: the featured-speaker cache is one global entry, not scoped per
conference — every qualifying recompute writes the same fixed key
`MEMCACHE_FEATURED_SPEAKER_KEY` whatever its conference, so a qualifying
recompute at one conference overwrites the value cached for another, and
`getFeaturedSpeaker` returns the most recently written value. -/
theorem featuredSpeaker_cache_global (s₁ : List Session) (sk₁ ck₁ n₁ : String)
    (s₂ : List Session) (sk₂ ck₂ n₂ : String) (m : Memcache)
    (h₁ : 1 < sessionCount s₁ sk₁ ck₁) (h₂ : 1 < sessionCount s₂ sk₂ ck₂) :
    (cacheFeaturedSpeaker s₂ sk₂ ck₂ n₂
        (cacheFeaturedSpeaker s₁ sk₁ ck₁ n₁ m).2).2 =
      memcacheSet MEMCACHE_FEATURED_SPEAKER_KEY (featuredSpeakerMsg n₂)
        (cacheFeaturedSpeaker s₁ sk₁ ck₁ n₁ m).2 ∧
    (cacheFeaturedSpeaker s₂ sk₂ ck₂ n₂
        (cacheFeaturedSpeaker s₁ sk₁ ck₁ n₁ m).2).2
        MEMCACHE_FEATURED_SPEAKER_KEY = some (featuredSpeakerMsg n₂) ∧
    getFeaturedSpeaker
        (cacheFeaturedSpeaker s₂ sk₂ ck₂ n₂
          (cacheFeaturedSpeaker s₁ sk₁ ck₁ n₁ m).2).2 = featuredSpeakerMsg n₂ := by
  refine ⟨by simp [cacheFeaturedSpeaker, h₂], ?_, ?_⟩
  · simp [cacheFeaturedSpeaker, h₁, h₂, memcacheSet]
  · simp [cacheFeaturedSpeaker, h₁, h₂, getFeaturedSpeaker, memcacheSet,
      featuredSpeakerMsg_ne_empty n₂]

/-- C10 witness: qualifying recomputes at two different conferences write
the same fixed key; the second overwrites the first and is what
`getFeaturedSpeaker` returns. -/
theorem featuredSpeaker_cache_global_witness :
    getFeaturedSpeaker
        (cacheFeaturedSpeaker [⟨"t1", "c2", "sq"⟩, ⟨"t2", "c2", "sq"⟩] "sq" "c2" "Bob"
          (cacheFeaturedSpeaker [⟨"s1", "c1", "sp"⟩, ⟨"s2", "c1", "sp"⟩] "sp" "c1"
            "Alice" emptyMemcache).2).2 = featuredSpeakerMsg "Bob" :=
  (featuredSpeaker_cache_global [⟨"s1", "c1", "sp"⟩, ⟨"s2", "c1", "sp"⟩] "sp" "c1"
    "Alice" [⟨"t1", "c2", "sq"⟩, ⟨"t2", "c2", "sq"⟩] "sq" "c2" "Bob" emptyMemcache
    (by decide) (by decide)).2.2

end ConferenceCentral
